import Mathlib

/-!
Verification development for the `playbook` runbook engine.

This file shallowly embeds the core subsystems of the Python source —
the domain model (`src/playbook/domain/models.py`), the conditional
dependency machinery (`infrastructure/conditions.py`), variable type
validation (`infrastructure/variables.py`), the parser's per-node
processing (`infrastructure/parser.py`), the persistence contract
(`infrastructure/persistence.py`), the execution engine
(`service/engine.py`), the plugin registry
(`infrastructure/plugin_registry.py`), and the CLI execution loop
(`cli/commands/run.py`) — and proves properties of the embedding.

Modelling conventions:
* Python `dict` (insertion ordered) is an association list; assignment to
  an existing key keeps its position, a new key is appended.
* Python exceptions are `Except String`.
* Timestamps are `Nat`; the `Clock` port is modelled as a fixed timestamp
  held in the engine state (`EngineState.clock`): no control flow in the
  modelled code inspects a time value, only stores it.
* External ports (process runner, IO-handler prompts, condition
  evaluator, plugin execute) are function-valued parameters (`EngineEnv`).
* The SQLite repositories are modelled value-level: the `executions`
  table is a list of rows, `INSERT` appends, `UPDATE` maps over rows
  matching the `WHERE` key, `SELECT ... ORDER BY` sorts.
-/

namespace Playbook

/-! ## Small utilities (Python string/dict helpers) -/

/-- Python `str.strip(chars)`: drop characters in `cs` from both ends. -/
def stripChars (s : String) (cs : List Char) : String :=
  ⟨(((s.data.dropWhile (· ∈ cs)).reverse.dropWhile (· ∈ cs)).reverse)⟩

/-- Python `str.strip()` (ASCII whitespace approximation). -/
def stripWS (s : String) : String :=
  stripChars s [' ', '\t', '\n', '\r']

/-- Dict assignment `d[k] = v`: overwrite in place, else append. -/
def dictSet {α : Type} (m : List (String × α)) (k : String) (v : α) :
    List (String × α) :=
  if m.any (fun p => p.1 == k) then
    m.map (fun p => if p.1 == k then (p.1, v) else p)
  else m ++ [(k, v)]

/-! ## Domain model (`domain/models.py`) -/

inductive NodeType
  | manual | function | command
  deriving DecidableEq, Repr

inductive NodeStatus
  | ok | nok | skipped | pending | running
  deriving DecidableEq, Repr

inductive RunStatus
  | ok | nok | running | aborted
  deriving DecidableEq, Repr

inductive TriggerType
  | run | resume
  deriving DecidableEq, Repr

/-- Scalar Python values (the element type of modelled containers; the
claims never inspect container elements, so nesting is flattened to one
level). -/
inductive PyLeaf
  | str (s : String)
  | int (n : Int)
  | bool (b : Bool)
  | float (q : Rat)
  | none
  deriving DecidableEq, Repr

/-- A Python value as it appears in variable handling (`typing.Any`). -/
inductive PyValue
  | str (s : String)
  | int (n : Int)
  | bool (b : Bool)
  | float (q : Rat)
  | list (xs : List PyLeaf)
  | dict (kvs : List (String × PyLeaf))
  | none
  deriving DecidableEq, Repr

/-- Python `type(value).__name__` for the values we model. -/
def PyValue.typeName : PyValue → String
  | .str _ => "str"
  | .int _ => "int"
  | .bool _ => "bool"
  | .float _ => "float"
  | .list _ => "list"
  | .dict _ => "dict"
  | .none => "NoneType"

def PyValue.isList : PyValue → Bool
  | .list _ => true
  | _ => false

/-- The node record. The pydantic source splits this over `BaseNode` and
the `ManualNode`/`FunctionNode`/`CommandNode` subclasses; we keep one
record with a `type` tag and the union of the declared fields, each with
the source's default. `whenAttr` models the duck-typed `when` attribute
that `engine.py` reads via `hasattr(node, "when")`: `Option.none` means
the attribute is absent. Note that the shipped `models.py` declares **no**
`when` field on any node class (see `node_model_validate` below). -/
structure PNode where
  id : String
  type : NodeType
  depends_on : List String := []
  critical : Bool := false
  name : Option String := Option.none
  description : Option String := Option.none
  prompt_before : String := ""
  prompt_after : String := "Continue with the next step?"
  skip : Bool := false
  whenAttr : Option String := Option.none
  timeout : Nat := 300
  command_name : String := ""
  interactive : Bool := false
  plugin : String := ""
  function : String := ""
  function_params : List (String × PyValue) := []
  plugin_config : List (String × PyValue) := []
  deriving DecidableEq, Repr

structure Runbook where
  title : String
  description : String
  version : String
  author : String
  created_at : Nat
  nodes : List (String × PNode)
  deriving DecidableEq, Repr

structure NodeExecution where
  workflow_name : String
  run_id : Nat
  node_id : String
  attempt : Nat
  start_time : Nat
  end_time : Option Nat := Option.none
  status : NodeStatus
  operator_decision : Option String := Option.none
  result_text : Option String := Option.none
  exit_code : Option Int := Option.none
  exception : Option String := Option.none
  stdout : Option String := Option.none
  stderr : Option String := Option.none
  duration_ms : Option Nat := Option.none
  deriving DecidableEq, Repr

structure RunInfo where
  workflow_name : String
  run_id : Nat
  start_time : Nat
  end_time : Option Nat := Option.none
  status : RunStatus
  nodes_ok : Nat := 0
  nodes_nok : Nat := 0
  nodes_skipped : Nat := 0
  trigger : TriggerType
  deriving DecidableEq, Repr

inductive VarType
  | string | int | float | bool | list
  deriving DecidableEq, Repr

/-- `VariableDefinition` (its pydantic field validators on `choices` and
`min`/`max` are construction-time checks not needed by the claims). -/
structure VariableDefinition where
  default : Option PyValue := Option.none
  required : Bool := false
  type : VarType := .string
  choices : Option (List PyValue) := Option.none
  description : Option String := Option.none
  min : Option Rat := Option.none
  max : Option Rat := Option.none
  pattern : Option String := Option.none
  deriving DecidableEq, Repr

/-! ## Conditional dependencies (`infrastructure/conditions.py`) -/

/-- Python `dependency.split(":", 1)`: split at the first `:` only,
`Option.none` when there is no colon. -/
def split_first_colon (s : String) : Option (String × String) :=
  match s.data.span (· ≠ ':') with
  | (_, []) => Option.none
  | (before, _ :: tail) => some (⟨before⟩, ⟨tail⟩)

/-- `ConditionalDependency.parse`: split a dependency string on the first
`:` into node id and optional condition; only `success`/`failure` are
legal conditions. -/
def conditional_dependency_parse (dependency : String) :
    Except String (String × Option String) :=
  match split_first_colon dependency with
  | Option.none => .ok (dependency, Option.none)
  | some (nid, condition) =>
      if condition = "success" ∨ condition = "failure" then
        .ok (nid, some condition)
      else
        .error ("Invalid condition " ++ condition ++ ". Must be success or failure")

/-- `ConditionalDependency.to_when_clause`. The literal braces of the
Jinja2 delimiters are written `\x7b`/`\x7d`. -/
def to_when_clause (node_id : String) (condition : Option String) :
    Except String String :=
  match condition with
  | Option.none => .ok "true"
  | some "success" => .ok ("\x7b\x7b has_succeeded(\"" ++ node_id ++ "\") \x7d\x7d")
  | some "failure" => .ok ("\x7b\x7b has_failed(\"" ++ node_id ++ "\") \x7d\x7d")
  | some c => .error ("Unknown condition: " ++ c)

/-- The accumulation loop of `parse_dependencies`: returns clean node ids
and the collected `when` clauses, in order. -/
def collect_dependencies : List String →
    Except String (List String × List String)
  | [] => .ok ([], [])
  | dep :: rest => do
      let (nid, cond) ← conditional_dependency_parse dep
      let (nids, conds) ← collect_dependencies rest
      match cond with
      | Option.none => .ok (nid :: nids, conds)
      | some c => do
          let clause ← to_when_clause nid (some c)
          .ok (nid :: nids, clause :: conds)

/-- `parse_dependencies`: strip conditional suffixes, combine the
resulting clauses (ANDed when several). -/
def parse_dependencies (dependencies : List String) :
    Except String (List String × String) := do
  let (node_ids, conditions) ← collect_dependencies dependencies
  let when_clause :=
    match conditions with
    | [] => "true"
    | [c] => c
    | cs =>
        "\x7b\x7b " ++
          String.intercalate " and "
            (cs.map (fun c => stripWS (stripChars c ['\x7b', '\x7d']))) ++
          " \x7d\x7d"
  .ok (node_ids, when_clause)

/-! ## Variable type validation (`infrastructure/variables.py`) -/

/-- Python `int(str)` approximation: strict decimal parse (no floats). -/
def pyIntOfString (s : String) : Option Int :=
  let t := stripWS s
  if t.length > 0 ∧ (t.data.all Char.isDigit ∨
      ((t.front = '-' ∨ t.front = '+') ∧ (t.drop 1).length > 0 ∧
        (t.drop 1).data.all Char.isDigit)) then
    some t.toInt!
  else
    Option.none

/-- Python `float(str)` approximation: accepts int literals (we do not
model fractional-literal parsing; no claim depends on it). -/
def pyFloatOfString (s : String) : Option Rat :=
  (pyIntOfString s).map (fun n => (n : Rat))

/-- Python `str(value)` approximation. -/
def pyStr : PyValue → String
  | .str s => s
  | .int n => toString n
  | .bool b => if b then "True" else "False"
  | .float q => toString q
  | .list _ => "<list>"
  | .dict _ => "<dict>"
  | .none => "None"

/-- ASCII `str.lower`. -/
def pyLower (s : String) : String := s.toLower

/-- `VariableManager._validate_variable_type`: validate and convert a
value to the declared type. Mirrors the source branch for branch; in
particular the `list` branch accepts only values that are already lists
and raises for everything else (it never JSON-parses strings). -/
def validate_variable_type (value : PyValue) (definition : VariableDefinition) :
    Except String PyValue :=
  match definition.type with
  | .string => .ok (.str (pyStr value))
  | .int =>
      match value with
      | .bool _ => .error "expected int, got bool"
      | .int n => .ok (.int n)
      | .float q => .ok (.int q.floor)
      | .str s =>
          match pyIntOfString s with
          | some n => .ok (.int n)
          | Option.none => .error ("expected int, got " ++ value.typeName)
      | _ => .error ("expected int, got " ++ value.typeName)
  | .float =>
      match value with
      | .int n => .ok (.float (n : Rat))
      | .float q => .ok (.float q)
      | .bool b => .ok (.float (if b then 1 else 0))
      | .str s =>
          match pyFloatOfString s with
          | some q => .ok (.float q)
          | Option.none => .error ("expected float, got " ++ value.typeName)
      | _ => .error ("expected float, got " ++ value.typeName)
  | .bool =>
      match value with
      | .bool b => .ok (.bool b)
      | .str s =>
          if pyLower s = "true" ∨ pyLower s = "1" ∨ pyLower s = "yes" ∨
              pyLower s = "on" then
            .ok (.bool true)
          else if pyLower s = "false" ∨ pyLower s = "0" ∨ pyLower s = "no" ∨
              pyLower s = "off" then
            .ok (.bool false)
          else
            .error ("expected bool, got " ++ value.typeName)
      | _ => .error ("expected bool, got " ++ value.typeName)
  | .list =>
      match value with
      | .list xs => .ok (.list xs)
      | _ => .error ("expected list, got " ++ value.typeName)

/-- Numeric comparison used by the constraint checks. -/
def pyValueAsRat : PyValue → Option Rat
  | .int n => some (n : Rat)
  | .float q => some q
  | _ => Option.none

/-- `VariableManager._validate_variable_constraints`; the regex matcher
for `pattern` is an external parameter `reMatch`. -/
def validate_variable_constraints (reMatch : String → String → Bool)
    (name : String) (value : PyValue) (definition : VariableDefinition) :
    Except String Unit := do
  match definition.choices with
  | some cs =>
      if value ∈ cs then pure () else
        .error ("Variable " ++ name ++ " value not in allowed choices")
  | Option.none => pure ()
  if definition.type = .int ∨ definition.type = .float then
    match definition.min, pyValueAsRat value with
    | some lo, some v =>
        if v < lo then
          .error ("Variable " ++ name ++ " value is below minimum")
        else pure ()
    | _, _ => pure ()
    match definition.max, pyValueAsRat value with
    | some hi, some v =>
        if v > hi then
          .error ("Variable " ++ name ++ " value is above maximum")
        else pure ()
    | _, _ => pure ()
  if definition.type = .string then
    match definition.pattern with
    | some pat =>
        if reMatch pat (pyStr value) then pure () else
          .error ("Variable " ++ name ++ " value does not match pattern")
    | Option.none => pure ()

/-- One step of the `validate_variables` loop for a definition `(name, d)`:
returns the updated variables dict and the error messages this entry
contributes. -/
def validate_variables_step (reMatch : String → String → Bool)
    (vars : List (String × PyValue)) (name : String)
    (d : VariableDefinition) : List (String × PyValue) × List String :=
  match vars.lookup name with
  | Option.none =>
      if d.required then (vars, ["Required variable " ++ name ++ " is missing"])
      else (vars, [])
  | some value =>
      match validate_variable_type value d with
      | .error e => (vars, ["Variable " ++ name ++ ": " ++ e])
      | .ok validated =>
          let vars := dictSet vars name validated
          match validate_variable_constraints reMatch name validated d with
          | .error e => (vars, [e])
          | .ok _ => (vars, [])

/-- `VariableManager.validate_variables`: validate every definition,
collect all errors, raise if any; on success return the (type-converted)
variables dict. -/
def validate_variables (reMatch : String → String → Bool)
    (vars0 : List (String × PyValue))
    (definitions : List (String × VariableDefinition)) :
    Except String (List (String × PyValue)) :=
  let (vars, errors) := definitions.foldl
    (fun (acc : List (String × PyValue) × List String) nd =>
      let (vars', errs) := validate_variables_step reMatch acc.1 nd.1 nd.2
      (vars', acc.2 ++ errs))
    (vars0, [])
  if errors.isEmpty then .ok vars
  else .error ("Variable validation failed: " ++ String.intercalate "; " errors)

/-! ## Parser (`infrastructure/parser.py`, node-processing slice)

A node's raw TOML table.  TOML values are restricted to the shapes a node
table uses: strings, ints, bools, arrays of strings (`depends_on`) and
inline tables of scalars (`function_params`, `plugin_config`). -/

inductive Toml
  | str (s : String)
  | int (n : Int)
  | bool (b : Bool)
  | arr (xs : List String)
  | table (kvs : List (String × PyLeaf))
  deriving DecidableEq, Repr

abbrev TomlTable := List (String × Toml)

/-- `RunbookParser.parse`, lines 179–215: implicit linear dependency when
`depends_on` is missing, and `"^"` / `"*"` expansion for scalar and list
forms. `i` is the node's declaration index, `node_ids_in_order` the
declaration order of all node ids. -/
def resolve_depends_on (i : Nat) (node_ids_in_order : List String)
    (node_data : TomlTable) : TomlTable :=
  match node_data.lookup "depends_on" with
  | Option.none =>
      let deps := if i > 0 then [node_ids_in_order.getD (i - 1) ""] else []
      dictSet node_data "depends_on" (.arr deps)
  | some (.str s) =>
      if s = "^" then
        dictSet node_data "depends_on"
          (.arr (if i > 0 then [node_ids_in_order.getD (i - 1) ""] else []))
      else if s = "*" then
        dictSet node_data "depends_on" (.arr (node_ids_in_order.take i))
      else
        dictSet node_data "depends_on" (.arr (if s ≠ "" then [s] else []))
  | some (.arr ds) =>
      let processed := ds.foldl
        (fun acc dep =>
          if dep = "^" then
            (if i > 0 then acc ++ [node_ids_in_order.getD (i - 1) ""] else acc)
          else if dep = "*" then acc ++ node_ids_in_order.take i
          else acc ++ [dep])
        []
      dictSet node_data "depends_on" (.arr processed)
  | some _ => node_data

/-- `RunbookParser.parse`, lines 217–236: rewrite conditional suffixes in
`depends_on` via `parse_dependencies` and fold the produced clause into
`when` (set it if absent, AND-combine if present). -/
def fold_conditional_dependencies (node_data : TomlTable) :
    Except String TomlTable :=
  match node_data.lookup "depends_on" with
  | some (.arr ds) => do
      let (clean, when_clause) ← parse_dependencies ds
      let nd := dictSet node_data "depends_on" (.arr clean)
      if when_clause ≠ "true" ∧ (nd.lookup "when").isNone then
        .ok (dictSet nd "when" (.str when_clause))
      else if (nd.lookup "when").isSome ∧ when_clause ≠ "true" then
        let existing := match nd.lookup "when" with
          | some (.str w) => w
          | _ => ""
        let existing_condition := stripWS (stripChars existing ['\x7b', '\x7d'])
        let new_condition := stripWS (stripChars when_clause ['\x7b', '\x7d'])
        .ok (dictSet nd "when"
          (.str ("\x7b\x7b (" ++ existing_condition ++ ") and (" ++
            new_condition ++ ") \x7d\x7d")))
      else
        .ok nd
  | _ => .ok node_data

/-- Field names declared on `BaseNode` in `domain/models.py`. Note the
absence of `when`: no node class declares a `when` field. -/
def base_node_fields : List String :=
  ["id", "type", "depends_on", "critical", "name", "description",
   "prompt_before", "prompt_after", "skip"]

/-- Declared fields per node class (each has `model_config extra=forbid`). -/
def node_fields : NodeType → List String
  | .manual => base_node_fields ++ ["timeout"]
  | .function =>
      base_node_fields ++ ["plugin", "function", "function_params", "plugin_config"]
  | .command => base_node_fields ++ ["command_name", "interactive", "timeout"]

def NodeType.value : NodeType → String
  | .manual => "Manual"
  | .function => "Function"
  | .command => "Command"

def tomlStr? : Option Toml → Option String
  | some (.str s) => some s
  | _ => Option.none

def tomlBoolD (v : Option Toml) (d : Bool) : Bool :=
  match v with
  | some (.bool b) => b
  | _ => d

def tomlNatD (v : Option Toml) (d : Nat) : Nat :=
  match v with
  | some (.int n) => n.toNat
  | _ => d

def tomlArrD (v : Option Toml) : List String :=
  match v with
  | some (.arr xs) => xs
  | _ => []

def tomlTableD (v : Option Toml) : List (String × PyLeaf) :=
  match v with
  | some (.table kvs) => kvs
  | _ => []

/-- pydantic `model_validate` for the node classes, under
`extra="forbid"`: every key outside the class's declared fields is an
`extra_forbidden` error (the parser renders it as `Undefined field ...`);
otherwise the record is built with the declared defaults. Scalar
coercion subtleties of pydantic are not modelled — no claim depends on
them. -/
def node_model_validate (nt : NodeType) (node_data : TomlTable) :
    Except String PNode :=
  let extras := node_data.filter (fun kv => decide (kv.1 ∉ node_fields nt))
  if extras.isEmpty then
    match tomlStr? (node_data.lookup "id") with
    | Option.none => .error "Field required at id"
    | some nid =>
        if nt = .command ∧ (tomlStr? (node_data.lookup "command_name")).isNone then
          .error "Field required at command_name"
        else if nt = .function ∧ ((tomlStr? (node_data.lookup "plugin")).isNone ∨
            (tomlStr? (node_data.lookup "function")).isNone) then
          .error "Field required at plugin or function"
        else
          .ok { id := nid
                type := nt
                depends_on := tomlArrD (node_data.lookup "depends_on")
                critical := tomlBoolD (node_data.lookup "critical") false
                name := tomlStr? (node_data.lookup "name")
                description := tomlStr? (node_data.lookup "description")
                prompt_before := (tomlStr? (node_data.lookup "prompt_before")).getD ""
                prompt_after := (tomlStr? (node_data.lookup "prompt_after")).getD
                  "Continue with the next step?"
                skip := tomlBoolD (node_data.lookup "skip") false
                whenAttr := Option.none
                timeout := tomlNatD (node_data.lookup "timeout") 300
                command_name := (tomlStr? (node_data.lookup "command_name")).getD ""
                interactive := tomlBoolD (node_data.lookup "interactive") false
                plugin := (tomlStr? (node_data.lookup "plugin")).getD ""
                function := (tomlStr? (node_data.lookup "function")).getD ""
                function_params :=
                  (tomlTableD (node_data.lookup "function_params")).map
                    (fun kv => (kv.1, PyValue.str (toString (repr kv.2))))
                plugin_config :=
                  (tomlTableD (node_data.lookup "plugin_config")).map
                    (fun kv => (kv.1, PyValue.str (toString (repr kv.2)))) }
  else
    .error (String.intercalate "; "
      (extras.map (fun kv =>
        "Undefined field " ++ kv.1 ++ " for node type " ++ nt.value)))

/-- One iteration of the parser's node loop (`parse`, lines 170–266):
inject `id`/`name`, resolve `depends_on`, fold conditional dependencies,
then construct the node by variant. -/
def parse_process_node (i : Nat) (node_ids_in_order : List String)
    (node_id : String) (node_data0 : TomlTable) : Except String PNode := do
  if (node_data0.lookup "type").isNone then
    .error ("Missing required field type in node: " ++ node_id)
  else
    let node_data := dictSet node_data0 "id" (.str node_id)
    let node_data :=
      if (node_data.lookup "name").isNone then
        dictSet node_data "name" (.str node_id)
      else node_data
    let node_data := resolve_depends_on i node_ids_in_order node_data
    let node_data ← fold_conditional_dependencies node_data
    let nt ← match tomlStr? (node_data.lookup "type") with
      | some "Manual" => .ok NodeType.manual
      | some "Function" => .ok NodeType.function
      | some "Command" => .ok NodeType.command
      | some t => .error ("Unknown node type: " ++ t)
      | Option.none => .error "Unknown node type"
    match node_model_validate nt node_data with
    | .ok n => .ok n
    | .error e => .error ("Error validating node " ++ node_id ++ ": " ++ e)

/-- `RunbookParser.parse`, lines 268–273: after all nodes are built, a
node that is both critical and skipped is rejected. -/
def validate_critical_nodes (nodes : List (String × PNode)) :
    Except String Unit :=
  match nodes.find? (fun p => p.2.critical && p.2.skip) with
  | some p => .error ("Skipping critical node not allowed: " ++ p.1)
  | Option.none => .ok ()

/-! ## Persistence (`infrastructure/persistence.py`)

The `executions` table is a list of rows; `INSERT` appends, `UPDATE`
rewrites the columns of every row matching the `WHERE` key. -/

abbrev ExecStore := List NodeExecution

/-- The four-column primary key of `executions`. -/
def execKeyMatches (r e : NodeExecution) : Bool :=
  r.workflow_name == e.workflow_name && r.run_id == e.run_id &&
    r.node_id == e.node_id && r.attempt == e.attempt

/-- `SQLiteNodeExecutionRepository.create_execution` (INSERT). -/
def create_execution (store : ExecStore) (e : NodeExecution) : ExecStore :=
  store ++ [e]

/-- `SQLiteNodeExecutionRepository.update_execution` (UPDATE ... WHERE on
the primary key). Only the SET columns change; `start_time` is kept. A
key with no matching row updates nothing. -/
def update_execution (store : ExecStore) (e : NodeExecution) : ExecStore :=
  store.map (fun r =>
    if execKeyMatches r e then
      { r with
        end_time := e.end_time
        status := e.status
        operator_decision := e.operator_decision
        result_text := e.result_text
        exit_code := e.exit_code
        exception := e.exception
        stdout := e.stdout
        stderr := e.stderr
        duration_ms := e.duration_ms }
    else r)

/-- Structural lexicographic order on char lists (by code point),
modelling the text ordering `ORDER BY` uses. -/
def charListLt : List Char → List Char → Bool
  | [], [] => false
  | [], _ :: _ => true
  | _ :: _, [] => false
  | c :: cs, d :: ds =>
      if c.toNat < d.toNat then true
      else if d.toNat < c.toNat then false
      else charListLt cs ds

def strLt (a b : String) : Bool := charListLt a.data b.data

/-- `ORDER BY node_id, attempt` as a Bool-valued total preorder. -/
def execRowLE (e1 e2 : NodeExecution) : Bool :=
  strLt e1.node_id e2.node_id ||
    (e1.node_id == e2.node_id && e1.attempt ≤ e2.attempt)

/-- Stable insertion step of `sort_rows`. -/
def insert_row {α : Type} (le : α → α → Bool) (x : α) : List α → List α
  | [] => [x]
  | y :: ys => if le x y then x :: y :: ys else y :: insert_row le x ys

/-- Stable insertion sort (structurally recursive, so proofs can
evaluate it; `ORDER BY` needs any stable sort). -/
def sort_rows {α : Type} (le : α → α → Bool) (l : List α) : List α :=
  l.foldr (insert_row le) []

/-- `SQLiteNodeExecutionRepository.get_executions`: all rows of a run,
ordered by `(node_id, attempt)`. -/
def get_executions (store : ExecStore) (workflow_name : String) (run_id : Nat) :
    List NodeExecution :=
  sort_rows execRowLE (store.filter (fun e =>
    e.workflow_name == workflow_name && e.run_id == run_id))

/-- `SQLiteNodeExecutionRepository.get_latest_execution_attempt`:
`ORDER BY attempt DESC LIMIT 1`, i.e. the row with the highest attempt. -/
def get_latest_execution_attempt (store : ExecStore) (workflow_name : String)
    (run_id : Nat) (node_id : String) : Option NodeExecution :=
  (store.filter (fun e =>
    e.workflow_name == workflow_name && e.run_id == run_id &&
      e.node_id == node_id)).foldl
    (fun acc e =>
      match acc with
      | Option.none => some e
      | some a => if e.attempt > a.attempt then some e else acc)
    Option.none

/-! ## Execution engine (`service/engine.py`) -/

/-- External ports consumed by the engine: the process runner, the IO
handler's prompt, the Jinja2 condition evaluator (over variables and the
latest-execution-per-node context), and plugin dispatch. -/
structure EngineEnv where
  run_command : String → Nat → Bool → Int × String × String
  handle_prompt : String → Option String → String → Bool
  eval_condition : String → List (String × PyValue) →
    List (String × NodeExecution) → Except String Bool
  plugin_execute : String → String → List (String × PyValue) →
    Except String String

/-- Engine-visible mutable state: the executions table, the current
run's row in the runs table, and the clock port's timestamp (constant:
no modelled control flow reads a time value). -/
structure EngineState where
  execStore : ExecStore
  runInfo : RunInfo
  clock : Nat
  deriving DecidableEq, Repr

/-- `RunbookEngine._get_latest_executions_per_node` dict-building step:
`latest[node_id] = e` when the id is new or the attempt is larger. -/
def upsert_latest (m : List (String × NodeExecution)) (e : NodeExecution) :
    List (String × NodeExecution) :=
  if m.any (fun p => p.1 == e.node_id) then
    m.map (fun p =>
      if p.1 == e.node_id && e.attempt > p.2.attempt then (p.1, e) else p)
  else m ++ [(e.node_id, e)]

/-- `RunbookEngine._get_latest_executions_per_node` (the identical loop
is also inlined in `_should_execute_node`). -/
def get_latest_executions_per_node (executions : List NodeExecution) :
    List (String × NodeExecution) :=
  executions.foldl upsert_latest []

/-- `RunbookEngine._should_execute_node`: nodes without a `when`
attribute (or a trivial one) always execute; otherwise the condition is
evaluated over the latest executions, and any evaluation error defaults
to execute (fail-open). -/
def should_execute_node (env : EngineEnv) (rb : Runbook) (node : PNode)
    (vars : List (String × PyValue)) (st : EngineState) : Bool :=
  match node.whenAttr with
  | Option.none => true
  | some w =>
      if w = "true" ∨ w = "True" ∨ w = "" then true
      else
        let executions := get_executions st.execStore rb.title st.runInfo.run_id
        let execution_map := get_latest_executions_per_node executions
        match env.eval_condition w vars execution_map with
        | .ok b => b
        | .error _ => true

/-- `RunbookEngine.update_run_status`: recompute the per-node latest
statuses, always persist the counts, then NOK on a critical failure,
OK/NOK when all nodes are terminal, RUNNING otherwise. -/
def update_run_status (rb : Runbook) (st : EngineState) :
    RunStatus × EngineState :=
  let executions := get_executions st.execStore rb.title st.runInfo.run_id
  let latest := get_latest_executions_per_node executions
  let nodes_ok := latest.countP (fun p => p.2.status == NodeStatus.ok)
  let nodes_nok := latest.countP (fun p => p.2.status == NodeStatus.nok)
  let nodes_skipped := latest.countP (fun p => p.2.status == NodeStatus.skipped)
  let ri := { st.runInfo with
    nodes_ok := nodes_ok
    nodes_nok := nodes_nok
    nodes_skipped := nodes_skipped }
  let st1 := { st with runInfo := ri }
  if latest.any (fun p =>
      match rb.nodes.lookup p.2.node_id with
      | some node => node.critical && p.2.status == NodeStatus.nok
      | Option.none => false) then
    (RunStatus.nok,
      { st1 with runInfo :=
        { ri with status := RunStatus.nok, end_time := some st1.clock } })
  else if nodes_ok + nodes_nok + nodes_skipped = rb.nodes.length then
    let status := if nodes_nok > 0 then RunStatus.nok else RunStatus.ok
    (status,
      { st1 with runInfo :=
        { ri with status := status, end_time := some st1.clock } })
  else
    (RunStatus.running, st1)

/-! ### Topological order (`RunbookEngine._get_execution_order`) -/

structure VisitState where
  visited : List String
  temp : List String
  order : List String
  deriving DecidableEq, Repr

/-- The `for dep in ...: visit(dep)` loop, abstracted over the visiting
function (errors propagate, state threads through). -/
def visit_deps (f : String → VisitState → Except String VisitState) :
    List String → VisitState → Except String VisitState
  | [], s => .ok s
  | d :: ds, s =>
      match f d s with
      | .error e => .error e
      | .ok s' => visit_deps f ds s'

/-- The recursive `visit` closure; `fuel` bounds the recursion depth
(the theorems show `|nodes| + 1` always suffices on acyclic inputs, so
the bound is never the reason a visit fails). -/
def visit (rb : Runbook) : Nat → String → VisitState →
    Except String VisitState
  | 0, _, _ => .error "recursion limit exceeded"
  | fuel + 1, node_id, s =>
      if node_id ∈ s.temp then .error ("Cycle detected at node " ++ node_id)
      else if node_id ∈ s.visited then .ok s
      else
        match rb.nodes.lookup node_id with
        | Option.none => .error ("KeyError: " ++ node_id)
        | some node =>
            match visit_deps (visit rb fuel) node.depends_on
                { s with temp := node_id :: s.temp } with
            | .error e => .error e
            | .ok s2 =>
                .ok { visited := node_id :: s2.visited,
                      temp := s2.temp.erase node_id,
                      order := s2.order ++ [node_id] }

/-- `RunbookEngine._get_execution_order`: visit every node (also the
ones unreachable from any sink) and return the accumulated order. -/
def get_execution_order (rb : Runbook) : Except String (List String) := do
  let keys := rb.nodes.map Prod.fst
  let s ← keys.foldlM
    (fun s node_id =>
      if node_id ∈ s.visited then .ok s
      else visit rb (keys.length + 1) node_id s)
    ⟨[], [], []⟩
  .ok s.order

/-! ### Per-node execution -/

/-- `RunbookEngine._handle_before_confirmation`. -/
def handle_before_confirmation (env : EngineEnv) (node : PNode) :
    Except String Bool :=
  if node.prompt_before = "" then
    .error "prompt_before message not defined"
  else
    .ok (env.handle_prompt node.id node.name node.prompt_before)

/-- `RunbookEngine._handle_after_confirmation`. -/
def handle_after_confirmation (env : EngineEnv) (node : PNode) :
    Except String Bool :=
  if node.prompt_after = "" then
    .error "prompt_after message not defined"
  else
    .ok (env.handle_prompt node.id node.name node.prompt_after)

/-- `RunbookEngine._execute_command_node`. -/
def execute_command_node (env : EngineEnv) (node : PNode) (st : EngineState) :
    Except String NodeExecution := do
  let start_time := st.clock
  let execution : NodeExecution :=
    { workflow_name := "", run_id := 0, node_id := "", attempt := 0,
      start_time := start_time, status := NodeStatus.pending }
  if node.prompt_before ≠ "" then
    let approved ← handle_before_confirmation env node
    if !approved then
      return { execution with
        status := NodeStatus.nok
        operator_decision := some "rejected"
        end_time := some st.clock }
  let (exit_code, out, err) := env.run_command node.command_name node.timeout
    node.interactive
  let end_time := st.clock
  let execution := { execution with
    end_time := some end_time
    exit_code := some exit_code
    stdout := some out
    stderr := some err
    duration_ms := some (end_time - start_time) }
  if exit_code == 0 then
    let execution := { execution with status := NodeStatus.ok }
    if node.prompt_after ≠ "" then
      let approved ← handle_after_confirmation env node
      if !approved then
        return { execution with
          status := NodeStatus.nok
          operator_decision := some "rejected"
          end_time := some st.clock }
      return { execution with operator_decision := some "approved" }
    return execution
  else
    return { execution with status := NodeStatus.nok }

/-- `RunbookEngine._execute_manual_node`. -/
def execute_manual_node (env : EngineEnv) (node : PNode) (st : EngineState) :
    Except String NodeExecution := do
  let start_time := st.clock
  let execution : NodeExecution :=
    { workflow_name := "", run_id := 0, node_id := "", attempt := 0,
      start_time := start_time, status := NodeStatus.pending }
  if node.prompt_before ≠ "" then
    let approved ← handle_before_confirmation env node
    if !approved then
      return { execution with
        status := NodeStatus.nok
        operator_decision := some "rejected"
        end_time := some st.clock }
  if node.prompt_after = "" then
    .error "Manual node must have a prompt_after message defined"
  else
    let approved ← handle_after_confirmation env node
    if !approved then
      return { execution with
        status := NodeStatus.nok
        operator_decision := some "rejected"
        end_time := some st.clock }
    return { execution with
      end_time := some st.clock
      duration_ms := some (st.clock - start_time)
      status := NodeStatus.ok
      operator_decision := some "approved" }

/-- `RunbookEngine._execute_function_node` (plugin dispatch through the
`plugin_execute` port; its errors become a NOK record). -/
def execute_function_node (env : EngineEnv) (node : PNode) (st : EngineState) :
    Except String NodeExecution := do
  let start_time := st.clock
  let execution : NodeExecution :=
    { workflow_name := "", run_id := 0, node_id := "", attempt := 0,
      start_time := start_time, status := NodeStatus.pending }
  if node.prompt_before ≠ "" then
    let approved ← handle_before_confirmation env node
    if !approved then
      return { execution with
        status := NodeStatus.nok
        operator_decision := some "rejected"
        end_time := some st.clock }
  match env.plugin_execute node.plugin node.function node.function_params with
  | .error e =>
      return { execution with
        end_time := some st.clock
        status := NodeStatus.nok
        exception := some e
        duration_ms := some (st.clock - start_time) }
  | .ok result =>
      let execution := { execution with
        end_time := some st.clock
        status := NodeStatus.ok
        result_text := some result
        duration_ms := some (st.clock - start_time) }
      if node.prompt_after = "" then
        return execution
      let approved ← handle_after_confirmation env node
      if !approved then
        return { execution with
          status := NodeStatus.nok
          operator_decision := some "rejected"
          end_time := some st.clock }
      return { execution with operator_decision := some "approved" }

/-- `RunbookEngine._execute_node_internal`: dispatch by node type; any
exception is captured into a NOK record. -/
def execute_node_internal (env : EngineEnv) (node : PNode) (start_time : Nat)
    (st : EngineState) : NodeExecution :=
  let result? :=
    match node.type with
    | .manual => execute_manual_node env node st
    | .function => execute_function_node env node st
    | .command => execute_command_node env node st
  match result? with
  | .ok result =>
      { workflow_name := "", run_id := 0, node_id := node.id, attempt := 1,
        start_time := start_time, end_time := some st.clock,
        status := result.status, operator_decision := result.operator_decision,
        result_text := result.result_text, exit_code := result.exit_code,
        exception := result.exception, stdout := result.stdout,
        stderr := result.stderr, duration_ms := result.duration_ms }
  | .error e =>
      { workflow_name := "", run_id := 0, node_id := node.id, attempt := 1,
        start_time := start_time, end_time := some st.clock,
        status := NodeStatus.nok, exception := some e,
        duration_ms := some (st.clock - start_time) }

/-- `RunbookEngine.execute_node`: skip short-circuit, `when` gating,
create the attempt-1 record, execute, update the record. -/
def execute_node (env : EngineEnv) (rb : Runbook) (node_id : String)
    (vars : List (String × PyValue)) (st : EngineState) :
    Except String (NodeStatus × NodeExecution × EngineState) :=
  match rb.nodes.lookup node_id with
  | Option.none => .error ("KeyError: " ++ node_id)
  | some node =>
      let start_time := st.clock
      if node.skip then
        if node.critical then
          .error ("Node " ++ node_id ++ " is critical and cannot be skipped")
        else
          let execution : NodeExecution :=
            { workflow_name := rb.title, run_id := st.runInfo.run_id,
              node_id := node_id, attempt := 1, start_time := start_time,
              end_time := some st.clock, status := NodeStatus.skipped,
              result_text := some "Node skipped as configured in workflow definition" }
          .ok (execution.status, execution,
            { st with execStore := create_execution st.execStore execution })
      else if !(should_execute_node env rb node vars st) then
        let execution : NodeExecution :=
          { workflow_name := rb.title, run_id := st.runInfo.run_id,
            node_id := node_id, attempt := 1, start_time := start_time,
            end_time := some st.clock, status := NodeStatus.skipped,
            result_text := some ("Node skipped due to condition: " ++
              node.whenAttr.getD "") }
        .ok (execution.status, execution,
          { st with execStore := create_execution st.execStore execution })
      else
        let execution : NodeExecution :=
          { workflow_name := rb.title, run_id := st.runInfo.run_id,
            node_id := node_id, attempt := 1, start_time := start_time,
            status := NodeStatus.running }
        let st1 := { st with execStore := create_execution st.execStore execution }
        let result := execute_node_internal env node start_time st1
        let execution := { execution with
          end_time := result.end_time
          status := result.status
          operator_decision := result.operator_decision
          result_text := result.result_text
          exit_code := result.exit_code
          exception := result.exception
          stdout := result.stdout
          stderr := result.stderr
          duration_ms := result.duration_ms }
        .ok (execution.status, execution,
          { st1 with execStore := update_execution st1.execStore execution })

/-- `RunbookEngine.resume_node_execution`: re-run a node in place on its
existing execution record (same attempt number throughout). -/
def resume_node_execution (env : EngineEnv) (rb : Runbook) (node_id : String)
    (existing : NodeExecution) (st : EngineState) :
    Except String (NodeStatus × NodeExecution × EngineState) :=
  match rb.nodes.lookup node_id with
  | Option.none => .error ("KeyError: " ++ node_id)
  | some node =>
      if node.skip then
        if node.critical then
          .error ("Node " ++ node_id ++ " is critical and cannot be skipped")
        else
          let ex := { existing with
            status := NodeStatus.skipped
            end_time := some st.clock
            result_text := some "Node skipped as configured in workflow definition" }
          .ok (ex.status, ex,
            { st with execStore := update_execution st.execStore ex })
      else
        let exR := { existing with status := NodeStatus.running }
        let st1 := { st with execStore := update_execution st.execStore exR }
        let result := execute_node_internal env node existing.start_time st1
        let ex := { exR with
          end_time := result.end_time
          status := result.status
          operator_decision := result.operator_decision
          result_text := result.result_text
          exit_code := result.exit_code
          exception := result.exception
          stdout := result.stdout
          stderr := result.stderr
          duration_ms := result.duration_ms }
        .ok (ex.status, ex,
          { st1 with execStore := update_execution st1.execStore ex })

/-- `RunbookEngine.execute_node_with_existing_record`: execute, then
update the record keyed by the given attempt — without creating it. -/
def execute_node_with_existing_record (env : EngineEnv) (rb : Runbook)
    (node_id : String) (attempt : Nat) (st : EngineState) :
    Except String (NodeStatus × NodeExecution × EngineState) :=
  match rb.nodes.lookup node_id with
  | Option.none => .error ("KeyError: " ++ node_id)
  | some node =>
      let start_time := st.clock
      let result := execute_node_internal env node start_time st
      let result := { result with
        workflow_name := rb.title
        run_id := st.runInfo.run_id
        attempt := attempt }
      .ok (result.status, result,
        { st with execStore := update_execution st.execStore result })

/-- `RunbookEngine.execute_node_retry`: create a fresh record for the
given attempt number, execute, update it (`operator_decision` is not
copied from the result, mirroring the source). -/
def execute_node_retry (env : EngineEnv) (rb : Runbook) (node_id : String)
    (attempt : Nat) (st : EngineState) :
    Except String (NodeStatus × NodeExecution × EngineState) :=
  match rb.nodes.lookup node_id with
  | Option.none => .error ("KeyError: " ++ node_id)
  | some node =>
      let start_time := st.clock
      let execution : NodeExecution :=
        { workflow_name := rb.title, run_id := st.runInfo.run_id,
          node_id := node_id, attempt := attempt, start_time := start_time,
          status := NodeStatus.running }
      let st1 := { st with execStore := create_execution st.execStore execution }
      let result := execute_node_internal env node start_time st1
      let execution := { execution with
        end_time := result.end_time
        status := result.status
        result_text := result.result_text
        exception := result.exception
        stdout := result.stdout
        stderr := result.stderr
        exit_code := result.exit_code
        duration_ms := result.duration_ms }
      .ok (execution.status, execution,
        { st1 with execStore := update_execution st1.execStore execution })

/-- The attempt loop of `RunbookEngine.retry_node_execution`. -/
def retry_attempt_loop (env : EngineEnv) (rb : Runbook) (node_id : String)
    (max_attempts : Nat) : List Nat → EngineState →
    Except String (NodeStatus × NodeExecution × Nat × EngineState)
  | [], st =>
      match get_latest_execution_attempt st.execStore rb.title
          st.runInfo.run_id node_id with
      | some fin => .ok (fin.status, fin, max_attempts, st)
      | Option.none => .error "AttributeError: NoneType has no attribute status"
  | attempt :: rest, st => do
      let (status, execution, st') ←
        execute_node_with_existing_record env rb node_id attempt st
      if status = NodeStatus.ok then .ok (status, execution, attempt, st')
      else retry_attempt_loop env rb node_id max_attempts rest st'

/-- `RunbookEngine.retry_node_execution`: run attempts
`current+1 .. max_attempts` through `execute_node_with_existing_record`. -/
def retry_node_execution (env : EngineEnv) (rb : Runbook) (node_id : String)
    (max_attempts : Nat) (st : EngineState) :
    Except String (NodeStatus × NodeExecution × Nat × EngineState) :=
  let latest := get_latest_execution_attempt st.execStore rb.title
    st.runInfo.run_id node_id
  let current := match latest with | some e => e.attempt | Option.none => 0
  retry_attempt_loop env rb node_id max_attempts
    (List.range' (current + 1) (max_attempts - current)) st

/-- `RunbookEngine.resume_run`: only RUNNING/ABORTED runs resume; the
run's status is set back to RUNNING and the trigger flips to RESUME. -/
def resume_run (_rb : Runbook) (st : EngineState) : Except String EngineState :=
  if st.runInfo.status = RunStatus.running ∨
      st.runInfo.status = RunStatus.aborted then
    .ok { st with runInfo :=
      { st.runInfo with
        status := RunStatus.running
        trigger := TriggerType.resume } }
  else
    .error "Cannot resume run with terminal status"

/-! ## Plugin registry (`infrastructure/plugin_registry.py`) -/

/-- Registry state over an abstract plugin-instance type. -/
structure RegistryState (Inst : Type) where
  plugins : List (String × Inst)
  plugin_classes : List (String × (Unit → Inst))
  initialized : Bool

/-- External inputs of the registry: the entry points that load
successfully (the source logs and drops failing ones) and the plugins'
`initialize`. -/
structure PluginEnv (Inst : Type) where
  entry_points : List (String × (Unit → Inst))
  initializePlugin : Inst → List (String × PyValue) → Except String Inst

/-- `PluginRegistry.discover_plugins`: populate `_plugin_classes` once;
never touches the `_plugins` instance cache. -/
def discover_plugins {Inst : Type} (env : PluginEnv Inst)
    (st : RegistryState Inst) : RegistryState Inst :=
  if st.initialized then st
  else
    { st with
      plugin_classes := env.entry_points.foldl
        (fun m p => dictSet m p.1 p.2) st.plugin_classes
      initialized := true }

/-- `PluginRegistry.get_plugin`: return the cached instance when present
(ignoring `config` entirely); otherwise instantiate, initialize with
`config`, cache. The returned `Bool` records whether `initialize` ran. -/
def get_plugin {Inst : Type} (env : PluginEnv Inst) (st : RegistryState Inst)
    (name : String) (config : List (String × PyValue)) :
    Except String (Inst × RegistryState Inst × Bool) :=
  let st := if !st.initialized then discover_plugins env st else st
  match st.plugins.lookup name with
  | some inst => .ok (inst, st, false)
  | Option.none =>
      match st.plugin_classes.lookup name with
      | Option.none => .error ("Plugin " ++ name ++ " not found")
      | some mk =>
          match env.initializePlugin (mk ()) config with
          | .error e =>
              .error ("Failed to initialize plugin " ++ name ++ ": " ++ e)
          | .ok inst =>
              .ok (inst,
                { st with plugins := st.plugins ++ [(name, inst)] }, true)

/-! ## CLI execution loop (`cli/commands/run.py`) -/

/-- `_determine_nodes_to_run`: a fresh run executes the whole order; a
resume keeps, from the start index on, every node whose latest recorded
status is not OK/SKIPPED. -/
def determine_nodes_to_run (rb : Runbook) (st : EngineState)
    (order : List String) (start_node_id : Option String) :
    Except String (List String) :=
  if st.runInfo.trigger = TriggerType.run then .ok order
  else
    let existing := get_executions st.execStore rb.title st.runInfo.run_id
    let node_executions := existing.foldl
      (fun m e => dictSet m e.node_id e) ([] : List (String × NodeExecution))
    let start_idx? : Except String Nat :=
      match start_node_id with
      | Option.none => .ok 0
      | some s =>
          match order.indexOf? s with
          | some idx => .ok idx
          | Option.none => .error ("Start node " ++ s ++ " not found in runbook")
    match start_idx? with
    | .error e => .error e
    | .ok start_idx =>
        .ok ((order.drop start_idx).filter (fun nid =>
          match node_executions.lookup nid with
          | Option.none => true
          | some e =>
              decide (¬(e.status = NodeStatus.ok ∨ e.status = NodeStatus.skipped))))

/-- An operator's answer at a failure prompt: retry / skip / abort. -/
inductive Decision
  | r | s | a
  deriving DecidableEq, Repr

/-- The interactive failure-handling `while` loop of `_execute_nodes`
(lines 341–464). The operator's answers are consumed from `ds`; an empty
list at a prompt means the run is blocked on input (modelled as an
error). An answer outside the offered choices is re-prompted. -/
def failure_loop (env : EngineEnv) (rb : Runbook) (max_retries : Nat)
    (node : PNode) (node_id : String) :
    List Decision → NodeExecution → EngineState →
    Except String (EngineState × List Decision)
  | ds, execution, st =>
    let latest := get_latest_execution_attempt st.execStore rb.title
      st.runInfo.run_id node_id
    let current_attempt := match latest with
      | some e => e.attempt
      | Option.none => 0
    if current_attempt ≥ max_retries then
      if node.critical then
        .ok ({ st with runInfo :=
          { st.runInfo with status := RunStatus.aborted } }, ds)
      else
        match ds with
        | [] => .error "blocked: awaiting operator decision"
        | d :: ds' =>
            match d with
            | .s =>
                let ex := { execution with status := NodeStatus.skipped }
                .ok ({ st with execStore := update_execution st.execStore ex }, ds')
            | .a =>
                .ok ({ st with runInfo :=
                  { st.runInfo with status := RunStatus.aborted } }, ds')
            | .r => failure_loop env rb max_retries node node_id ds' execution st
    else
      match ds with
      | [] => .error "blocked: awaiting operator decision"
      | d :: ds' =>
          match d with
          | .r => do
              let (status, execution', st') ←
                execute_node_retry env rb node_id (current_attempt + 1) st
              if status = NodeStatus.ok then .ok (st', ds')
              else failure_loop env rb max_retries node node_id ds' execution' st'
          | .s =>
              if node.critical then
                failure_loop env rb max_retries node node_id ds' execution st
              else
                let ex := { execution with status := NodeStatus.skipped }
                .ok ({ st with execStore := update_execution st.execStore ex }, ds')
          | .a =>
              .ok ({ st with runInfo :=
                { st.runInfo with status := RunStatus.aborted } }, ds')

/-- The node `for` loop of `_execute_nodes` (lines 296–470): resume an
existing non-OK record, otherwise execute fresh; on NOK run the failure
loop, breaking out when the run was aborted; update the run status after
every completed node. -/
def nodes_loop (env : EngineEnv) (rb : Runbook) (max_retries : Nat)
    (vars : List (String × PyValue))
    (existing_map : List (String × NodeExecution)) :
    List String → List Decision → EngineState →
    Except String (EngineState × List Decision)
  | [], ds, st => .ok (st, ds)
  | node_id :: rest, ds, st => do
      let node ← match rb.nodes.lookup node_id with
        | some n => Except.ok n
        | Option.none => Except.error ("KeyError: " ++ node_id)
      let (status, execution, st1) ←
        match existing_map.lookup node_id with
        | some ex =>
            if ex.status ≠ NodeStatus.ok then
              resume_node_execution env rb node_id ex st
            else execute_node env rb node_id vars st
        | Option.none => execute_node env rb node_id vars st
      if status = NodeStatus.nok then
        let (st2, ds') ←
          failure_loop env rb max_retries node node_id ds execution st1
        if st2.runInfo.status = RunStatus.aborted then
          .ok (st2, ds')
        else
          let (_, st3) := update_run_status rb st2
          nodes_loop env rb max_retries vars existing_map rest ds' st3
      else
        let (_, st2) := update_run_status rb st1
        nodes_loop env rb max_retries vars existing_map rest ds st2

/-- `_execute_nodes`: snapshot the latest execution per node, run the
node loop, and perform the final run-status aggregation. -/
def execute_nodes (env : EngineEnv) (rb : Runbook) (max_retries : Nat)
    (vars : List (String × PyValue)) (nodes_to_run : List String)
    (ds : List Decision) (st : EngineState) : Except String EngineState := do
  let existing := get_executions st.execStore rb.title st.runInfo.run_id
  let existing_map := existing.foldl
    (fun m e => dictSet m e.node_id e) ([] : List (String × NodeExecution))
  let (st1, _) ← nodes_loop env rb max_retries vars existing_map nodes_to_run ds st
  let (_, st2) := update_run_status rb st1
  .ok st2

/-- The resume branch of `_execute_workflow` (lines 182–222): resume the
run, compute the order, select the nodes, execute them (or return
immediately when nothing is left to run). -/
def execute_workflow_resume (env : EngineEnv) (rb : Runbook)
    (max_retries : Nat) (vars : List (String × PyValue))
    (start_node_id : Option String) (ds : List Decision) (st : EngineState) :
    Except String EngineState := do
  let st1 ← resume_run rb st
  let order ← get_execution_order rb
  let nodes_to_run ← determine_nodes_to_run rb st1 order start_node_id
  if nodes_to_run.isEmpty then .ok st1
  else execute_nodes env rb max_retries vars nodes_to_run ds st1

/-! ## Concrete scenarios

S2 (claim C2): three Command nodes, `a` (exit 0, critical), `b` (exit 1,
critical), `c` (exit 0), linear dependencies, fresh run. The nodes use
empty prompts so no operator confirmation is involved. -/

def nodeA2 : PNode :=
  { id := "a", type := .command, depends_on := [], critical := true,
    name := some "a", prompt_before := "", prompt_after := "",
    command_name := "exit 0" }

def nodeB2 : PNode :=
  { id := "b", type := .command, depends_on := ["a"], critical := true,
    name := some "b", prompt_before := "", prompt_after := "",
    command_name := "exit 1" }

def nodeC2 : PNode :=
  { id := "c", type := .command, depends_on := ["b"],
    name := some "c", prompt_before := "", prompt_after := "",
    command_name := "exit 0" }

def rbS2 : Runbook :=
  { title := "s2", description := "", version := "1", author := "t",
    created_at := 0, nodes := [("a", nodeA2), ("b", nodeB2), ("c", nodeC2)] }

/-- Ports for S2: `exit 0` succeeds, anything else exits 1; prompts
approve; conditions evaluate to true; plugins succeed. -/
def envS2 : EngineEnv :=
  { run_command := fun cmd _ _ => if cmd = "exit 0" then (0, "", "") else (1, "", "")
    handle_prompt := fun _ _ _ => true
    eval_condition := fun _ _ _ => .ok true
    plugin_execute := fun _ _ _ => .ok "" }

def runS2 : RunInfo :=
  { workflow_name := "s2", run_id := 1, start_time := 0,
    status := .running, trigger := .run }

def stS2 : EngineState := { execStore := [], runInfo := runS2, clock := 0 }

/-! S6 (claim C3): three Command nodes `a`, `b`, `c`; a previous run left
`a` OK (attempt 1), `b` NOK (attempt 1), `c` unexecuted; the run was
force-aborted; on resume every command succeeds. -/

def nodeA6 : PNode :=
  { id := "a", type := .command, depends_on := [], name := some "a",
    prompt_before := "", prompt_after := "", command_name := "cmd-a" }

def nodeB6 : PNode :=
  { id := "b", type := .command, depends_on := ["a"], name := some "b",
    prompt_before := "", prompt_after := "", command_name := "cmd-b" }

def nodeC6 : PNode :=
  { id := "c", type := .command, depends_on := ["b"], name := some "c",
    prompt_before := "", prompt_after := "", command_name := "cmd-c" }

def rbS6 : Runbook :=
  { title := "s6", description := "", version := "1", author := "t",
    created_at := 0, nodes := [("a", nodeA6), ("b", nodeB6), ("c", nodeC6)] }

/-- Ports for S6: every command exits 0 on the resumed run. -/
def envS6 : EngineEnv :=
  { run_command := fun _ _ _ => (0, "", "")
    handle_prompt := fun _ _ _ => true
    eval_condition := fun _ _ _ => .ok true
    plugin_execute := fun _ _ _ => .ok "" }

/-- `a`'s OK attempt-1 record from the interrupted run. -/
def aRec6 : NodeExecution :=
  { workflow_name := "s6", run_id := 1, node_id := "a", attempt := 1,
    start_time := 0, end_time := some 0, status := .ok, exit_code := some 0,
    stdout := some "", stderr := some "", duration_ms := some 0 }

/-- `b`'s NOK attempt-1 record from the interrupted run. -/
def bRec6 : NodeExecution :=
  { workflow_name := "s6", run_id := 1, node_id := "b", attempt := 1,
    start_time := 0, end_time := some 0, status := .nok, exit_code := some 1,
    stdout := some "", stderr := some "", duration_ms := some 0 }

def runS6 : RunInfo :=
  { workflow_name := "s6", run_id := 1, start_time := 0, status := .aborted,
    nodes_ok := 1, nodes_nok := 1, trigger := .run }

def stS6 : EngineState :=
  { execStore := [aRec6, bRec6], runInfo := runS6, clock := 9 }

/-! ## Claims -/

/-- C1 (code bug): `parse_dependencies` deterministically rewrites
`depends_on = ["a:success", "b"]` to `(["a", "b"],
{{ has_succeeded("a") }})` — but `RunbookParser.parse` then injects the
clause as a `when` key into the node data, and no node class declares a
`when` field while all set `extra="forbid"`, so node validation rejects
the runbook with `Undefined field when`. The repository's own tests
(`tests/test_infrastructure/test_conditional_parsing.py`) assert the
claimed behaviour, so the missing `when` field on `BaseNode` contradicts
them. This theorem evaluates both facts at the failing input. -/
theorem c1_conditional_rewrite_hits_missing_when_field :
    parse_dependencies ["a:success", "b"] =
      .ok (["a", "b"], "\x7b\x7b has_succeeded(\"a\") \x7d\x7d") ∧
    parse_process_node 2 ["a", "b", "n"] "n"
        [("type", Toml.str "Command"), ("command_name", Toml.str "run"),
         ("depends_on", Toml.arr ["a:success", "b"])] =
      .error "Error validating node n: Undefined field when for node type Command" := by
  refine ⟨?_, ?_⟩ <;> rfl

/-- C3 counterexample: resuming the S6 run re-executes `b` by updating
its existing attempt-1 record in place; the final store holds records
`a#1`, `b#1`, `c#1` and no attempt-2 record for `b`, contradicting the
claim that `b` is re-executed as a new record with `attempt = 2`. -/
theorem c3_counterexample_no_second_attempt_for_b :
    (execute_workflow_resume envS6 rbS6 3 [] Option.none [] stS6).map
        (fun st => st.execStore.map (fun e => (e.node_id, e.attempt))) =
      Except.ok [("a", 1), ("b", 1), ("c", 1)] ∧
    (execute_workflow_resume envS6 rbS6 3 [] Option.none [] stS6).map
        (fun st =>
          st.execStore.all (fun e => !(e.node_id == "b" && e.attempt == 2))) =
      Except.ok true := by
  refine ⟨?_, ?_⟩ <;> rfl

/-- C3 (amended): resuming S6 flips the trigger to RESUME, selects
exactly `[b, c]` from the topological order `[a, b, c]`, leaves `a`'s OK
attempt-1 record byte-for-byte unchanged, re-executes `b` in place on
its existing attempt-1 record (attempt stays 1, status becomes the new
result), and executes `c` as a fresh attempt-1 record. -/
theorem c3_resume_reuses_existing_attempt :
    (resume_run rbS6 stS6).map (fun st1 => st1.runInfo.trigger) =
      Except.ok TriggerType.resume ∧
    (resume_run rbS6 stS6).map (fun st1 => st1.runInfo.status) =
      Except.ok RunStatus.running ∧
    get_execution_order rbS6 = Except.ok ["a", "b", "c"] ∧
    (resume_run rbS6 stS6).bind
        (fun st1 => determine_nodes_to_run rbS6 st1 ["a", "b", "c"] Option.none) =
      Except.ok ["b", "c"] ∧
    (execute_workflow_resume envS6 rbS6 3 [] Option.none [] stS6).map
        (fun st =>
          (st.runInfo.trigger,
           st.execStore.head?,
           (st.execStore.filter (fun e => e.node_id == "b")).map
             (fun e => (e.attempt, e.status)),
           (st.execStore.filter (fun e => e.node_id == "c")).map
             (fun e => (e.attempt, e.status)))) =
      Except.ok (TriggerType.resume, some aRec6,
        [(1, NodeStatus.ok)], [(1, NodeStatus.ok)]) := by
  refine ⟨?_, ?_, ?_, ?_, ?_⟩ <;> rfl

/-- A runbook whose only node is both critical and skipped, built by
plain construction of the domain model (the pydantic `Runbook` model has
no validator relating `critical` and `skip`; construction-time checking
is only type-shaped, so the record type is its faithful embedding). -/
def critical_skip_node : PNode :=
  { id := "x", type := .command, command_name := "true",
    critical := true, skip := true }

def critical_skip_runbook : Runbook :=
  { title := "t", description := "", version := "1", author := "t",
    created_at := 0, nodes := [("x", critical_skip_node)] }

/-- C5 counterexample: a `Runbook` value containing a node with
`critical = true` and `skip = true` is directly constructible — the
domain model performs no such check (only `RunbookParser.parse` does),
so the claim that no such value can be produced "by direct construction
of the domain model" is false. -/
theorem c5_counterexample_direct_construction :
    critical_skip_runbook.nodes.lookup "x" = some critical_skip_node ∧
    critical_skip_node.critical = true ∧ critical_skip_node.skip = true := by
  exact ⟨rfl, rfl, rfl⟩

/-- C5 (amended): the parser's post-construction check rejects every
runbook containing a node with `critical = true` and `skip = true`;
direct construction of the domain model performs no such check. -/
theorem c5_parser_rejects_critical_skip (nodes : List (String × PNode))
    (h : ∃ p ∈ nodes, p.2.critical = true ∧ p.2.skip = true) :
    ∃ msg, validate_critical_nodes nodes = .error msg := by
  obtain ⟨p, hp, hc, hs⟩ := h
  have hfind : (nodes.find? (fun p => p.2.critical && p.2.skip)).isSome := by
    rw [List.find?_isSome]
    exact ⟨p, hp, by simp [hc, hs]⟩
  unfold validate_critical_nodes
  obtain ⟨q, hq⟩ := Option.isSome_iff_exists.mp hfind
  rw [hq]
  exact ⟨_, rfl⟩

/-- C5 witness: the amended theorem applied to the concrete
critical-and-skipped runbook. -/
theorem c5_parser_rejects_critical_skip_witness :
    ∃ msg, validate_critical_nodes critical_skip_runbook.nodes = .error msg :=
  c5_parser_rejects_critical_skip critical_skip_runbook.nodes
    ⟨("x", critical_skip_node), by decide, by decide, by decide⟩

/-- C7: whenever the condition evaluator raises on a node's `when`
expression (over the context the engine builds from the latest
executions), `_should_execute_node` returns `true` — the engine
fail-opens instead of propagating the error or skipping the node. -/
theorem c7_when_evaluation_error_fail_open (env : EngineEnv) (rb : Runbook)
    (node : PNode) (vars : List (String × PyValue)) (st : EngineState)
    (w e : String) (hw : node.whenAttr = some w)
    (herr : env.eval_condition w vars
      (get_latest_executions_per_node
        (get_executions st.execStore rb.title st.runInfo.run_id)) =
      .error e) :
    should_execute_node env rb node vars st = true := by
  simp only [should_execute_node, hw]
  by_cases htriv : w = "true" ∨ w = "True" ∨ w = ""
  · simp [htriv]
  · simp [htriv, herr]

/-- C7 witness: a node whose `when` expression always fails to evaluate
is still executed. -/
theorem c7_when_evaluation_error_fail_open_witness :
    (some "\x7b\x7b boom \x7d\x7d" =
      some ("\x7b\x7b boom \x7d\x7d" : String)) ∧
    should_execute_node
      { envS2 with eval_condition := fun _ _ _ => .error "render failure" }
      rbS2 { nodeC2 with whenAttr := some "\x7b\x7b boom \x7d\x7d" } [] stS2 =
      true :=
  ⟨rfl,
    c7_when_evaluation_error_fail_open
      { envS2 with eval_condition := fun _ _ _ => .error "render failure" }
      rbS2 { nodeC2 with whenAttr := some "\x7b\x7b boom \x7d\x7d" } [] stS2
      "\x7b\x7b boom \x7d\x7d" "render failure" rfl rfl⟩

/-- C8 counterexample: a variable declared with `type = list` whose
value is the JSON-parseable string `"[1, 2]"` fails validation —
`_validate_variable_type` never JSON-parses strings for the `list`
type, contradicting the claim that such strings are accepted and
converted. -/
theorem c8_counterexample_json_string_rejected :
    validate_variables (fun _ _ => false) [("x", PyValue.str "[1, 2]")]
        [("x", { type := VarType.list })] =
      .error "Variable validation failed: Variable x: expected list, got str" := by
  exact rfl

/-- C8 (amended): for a variable declared with `type = list`, type
coercion accepts exactly the values that are already lists (returning
them unchanged) and fails for every other value — including strings,
whether JSON-parseable or not. (JSON parsing of `[`-prefixed strings
happens earlier, in the CLI/env loaders, not in type validation.) -/
theorem c8_list_type_accepts_only_lists (v : PyValue)
    (d : VariableDefinition) (h : d.type = VarType.list) :
    (validate_variable_type v d = .ok v ↔ v.isList = true) ∧
    (v.isList = false →
      validate_variable_type v d = .error ("expected list, got " ++ v.typeName)) := by
  constructor
  · constructor
    · intro hok
      cases v <;> simp_all [validate_variable_type, PyValue.isList, h]
    · intro hl
      cases v <;> simp_all [validate_variable_type, PyValue.isList, h]
  · intro hl
    cases v <;> simp_all [validate_variable_type, PyValue.isList, h]

/-- C8 witness: the amended theorem at `type = list` with a list value
and with the string `"[1, 2]"`. -/
theorem c8_list_type_accepts_only_lists_witness :
    (VariableDefinition.type { type := VarType.list } = VarType.list) ∧
    (validate_variable_type (PyValue.list [PyLeaf.int 1, PyLeaf.int 2])
        { type := VarType.list } =
      .ok (PyValue.list [PyLeaf.int 1, PyLeaf.int 2])) ∧
    (validate_variable_type (PyValue.str "[1, 2]") { type := VarType.list } =
      .error "expected list, got str") := by
  refine ⟨rfl, ?_, ?_⟩
  · exact (c8_list_type_accepts_only_lists
      (PyValue.list [PyLeaf.int 1, PyLeaf.int 2]) _ rfl).1.mpr (by decide)
  · exact (c8_list_type_accepts_only_lists
      (PyValue.str "[1, 2]") _ rfl).2 (by decide)

/-- `discover_plugins` never touches the instance cache. -/
theorem discover_plugins_preserves_instances {Inst : Type}
    (env : PluginEnv Inst) (st : RegistryState Inst) :
    (discover_plugins env st).plugins = st.plugins := by
  unfold discover_plugins
  split <;> rfl

/-- C9: once an instance for `name` is cached, `get_plugin` returns that
very instance with `initialize` not invoked, leaves the instance cache
unchanged, and its result does not depend on the `config` argument at
all — so a later Function node's `plugin_config` has no effect on an
already-initialized plugin. -/
theorem c9_cached_plugin_ignores_config {Inst : Type} (env : PluginEnv Inst)
    (st : RegistryState Inst) (name : String) (inst : Inst)
    (config config' : List (String × PyValue))
    (h : st.plugins.lookup name = some inst) :
    (∃ st', get_plugin env st name config = .ok (inst, st', false) ∧
      st'.plugins = st.plugins) ∧
    get_plugin env st name config = get_plugin env st name config' := by
  have hplugins : (if !st.initialized then discover_plugins env st else st).plugins
      = st.plugins := by
    split
    · exact discover_plugins_preserves_instances env st
    · rfl
  have hcached : ∀ cfg : List (String × PyValue),
      get_plugin env st name cfg =
        .ok (inst, if !st.initialized then discover_plugins env st else st, false) := by
    intro cfg
    unfold get_plugin
    dsimp only
    rw [hplugins, h]
  exact ⟨⟨_, hcached config, hplugins⟩, by rw [hcached config, hcached config']⟩

/-- C9 witness: a registry holding a cached instance `42` for `"p"`
returns it for two different configs without re-initializing. -/
theorem c9_cached_plugin_ignores_config_witness :
    (([("p", 42)] : List (String × Nat)).lookup "p" = some 42) ∧
    (∃ st', get_plugin
        ⟨[], fun i _ => .ok i⟩
        ⟨[("p", 42)], [], true⟩ "p" [("k", PyValue.int 1)] =
        .ok (42, st', false) ∧
      st'.plugins = [("p", 42)]) ∧
    get_plugin ⟨[], fun i _ => .ok i⟩ ⟨[("p", 42)], [], true⟩ "p"
        [("k", PyValue.int 1)] =
      get_plugin ⟨[], fun i _ => .ok i⟩ ⟨[("p", 42)], [], true⟩ "p" [] := by
  refine ⟨rfl, ?_, ?_⟩
  · exact (c9_cached_plugin_ignores_config ⟨[], fun i _ => .ok i⟩
      ⟨[("p", 42)], [], true⟩ "p" 42 [("k", PyValue.int 1)] [] rfl).1
  · exact (c9_cached_plugin_ignores_config ⟨[], fun i _ => .ok i⟩
      ⟨[("p", 42)], [], true⟩ "p" 42 [("k", PyValue.int 1)] [] rfl).2

theorem update_execution_no_match (e : NodeExecution) :
    ∀ (store : ExecStore), (∀ r ∈ store, execKeyMatches r e = false) →
      update_execution store e = store
  | [], _ => rfl
  | hd :: tl, h => by
      have h1 := h hd (by simp)
      have h2 := update_execution_no_match e tl (fun r hr => h r (by simp [hr]))
      simp only [update_execution, List.map_cons] at h2 ⊢
      simp [h1, h2]

theorem execute_node_internal_node_id (env : EngineEnv) (node : PNode)
    (t : Nat) (st : EngineState) :
    (execute_node_internal env node t st).node_id = node.id := by
  unfold execute_node_internal
  dsimp only
  split <;> rfl

theorem exec_existing_no_record (env : EngineEnv) (rb : Runbook)
    (node_id : String) (node : PNode) (attempt : Nat) (st : EngineState)
    (hn : rb.nodes.lookup node_id = some node)
    (hkey : ∀ r ∈ st.execStore, ¬(r.workflow_name = rb.title ∧
      r.run_id = st.runInfo.run_id ∧ r.node_id = node.id ∧ r.attempt = attempt)) :
    (execute_node_with_existing_record env rb node_id attempt st).map
      (fun out => out.2.2) = .ok st := by
  unfold execute_node_with_existing_record
  rw [hn]
  dsimp only
  have hfalse : ∀ r ∈ st.execStore, execKeyMatches r
      { execute_node_internal env node st.clock st with
        workflow_name := rb.title
        run_id := st.runInfo.run_id
        attempt := attempt } = false := by
    intro r hr
    by_contra hb
    rw [Bool.not_eq_false] at hb
    apply hkey r hr
    simp only [execKeyMatches, Bool.and_eq_true, beq_iff_eq,
      execute_node_internal_node_id] at hb
    exact ⟨hb.1.1.1, hb.1.1.2, hb.1.2, hb.2⟩
  rw [update_execution_no_match _ _ hfalse]
  rfl

theorem retry_loop_no_records (env : EngineEnv) (rb : Runbook)
    (node_id : String) (node : PNode) (maxa : Nat)
    (hn : rb.nodes.lookup node_id = some node) :
    ∀ (attempts : List Nat) (st : EngineState),
      (∀ r ∈ st.execStore, ¬(r.workflow_name = rb.title ∧
        r.run_id = st.runInfo.run_id ∧ r.node_id = node.id)) →
      ∀ out, retry_attempt_loop env rb node_id maxa attempts st = .ok out →
        out.2.2.2 = st
  | [], st, hkeys, out, h => by
      unfold retry_attempt_loop at h
      split at h
      · cases h; rfl
      · cases h
  | attempt :: rest, st, hkeys, out, h => by
      have hstep := exec_existing_no_record env rb node_id node attempt st hn
        (fun r hr hc => hkeys r hr ⟨hc.1, hc.2.1, hc.2.2.1⟩)
      unfold retry_attempt_loop at h
      cases hx : execute_node_with_existing_record env rb node_id attempt st with
      | error e => rw [hx] at h; cases h
      | ok trip =>
          obtain ⟨status, execution, st'⟩ := trip
          have hst' : st' = st := by
            rw [hx] at hstep
            simpa [Except.map] using hstep
          rw [hx] at h
          rw [show ((do
              let d ← Except.ok (status, execution, st')
              if d.1 = NodeStatus.ok then Except.ok (d.1, d.2.1, attempt, d.2.2)
              else retry_attempt_loop env rb node_id maxa rest d.2.2) :
                Except String (NodeStatus × NodeExecution × Nat × EngineState)) =
            (if status = NodeStatus.ok then Except.ok (status, execution, attempt, st')
             else retry_attempt_loop env rb node_id maxa rest st') from rfl] at h
          split at h
          · cases h
            exact hst'
          · have := retry_loop_no_records env rb node_id node maxa hn rest st'
              (by rw [hst']; exact hkeys) out h
            rw [this, hst']

/-- C10: `update_execution` with a key for which no record exists leaves
the executions store completely unchanged (the SQL UPDATE matches zero
rows); in particular `execute_node_with_existing_record` — which updates
without first creating the record for the given attempt — leaves the
whole engine state unchanged, and `retry_node_execution`, which loops
it, persists no record for any retried attempt. -/
theorem c10_update_without_create_persists_nothing
    (store : ExecStore) (e : NodeExecution)
    (env : EngineEnv) (rb : Runbook) (node_id : String) (node : PNode)
    (maxa : Nat) (st : EngineState)
    (h : ∀ r ∈ store, execKeyMatches r e = false)
    (hn : rb.nodes.lookup node_id = some node)
    (hnode : ∀ r ∈ st.execStore, ¬(r.workflow_name = rb.title ∧
      r.run_id = st.runInfo.run_id ∧ r.node_id = node.id)) :
    update_execution store e = store ∧
    (∀ attempt, (execute_node_with_existing_record env rb node_id attempt st).map
      (fun out => out.2.2) = .ok st) ∧
    (∀ out, retry_node_execution env rb node_id maxa st = .ok out →
      out.2.2.2.execStore = st.execStore) := by
  refine ⟨update_execution_no_match e store h, ?_, ?_⟩
  · intro attempt
    exact exec_existing_no_record env rb node_id node attempt st hn
      (fun r hr hc => hnode r hr ⟨hc.1, hc.2.1, hc.2.2.1⟩)
  · intro out hout
    have := retry_loop_no_records env rb node_id node maxa hn _ st hnode out hout
    rw [this]

/-- C10 witness: the missing-key no-op at a concrete store and a
concrete retry of node `c`, which has no records in the S6 store. -/
theorem c10_update_without_create_persists_nothing_witness :
    ((∀ r ∈ [aRec6], execKeyMatches r bRec6 = false) ∧
      rbS6.nodes.lookup "c" = some nodeC6 ∧
      (∀ r ∈ stS6.execStore, ¬(r.workflow_name = rbS6.title ∧
        r.run_id = stS6.runInfo.run_id ∧ r.node_id = nodeC6.id))) ∧
    update_execution [aRec6] bRec6 = [aRec6] ∧
    (∀ attempt, (execute_node_with_existing_record envS6 rbS6 "c" attempt stS6).map
      (fun out => out.2.2) = .ok stS6) ∧
    (∀ out, retry_node_execution envS6 rbS6 "c" 2 stS6 = .ok out →
      out.2.2.2.execStore = stS6.execStore) := by
  refine ⟨⟨by decide, by decide, by decide⟩, ?_⟩
  exact c10_update_without_create_persists_nothing [aRec6] bRec6 envS6 rbS6 "c"
    nodeC6 2 stS6 (by decide) (by decide) (by decide)

/-- C4: `update_run_status` is idempotent — with no interleaved change
to the attempt records (the function itself never touches the
executions store), a second call returns the same run status and leaves
the same status and `nodes_ok`/`nodes_nok`/`nodes_skipped` counts on the
run record as the first call. -/
theorem c4_update_run_status_idempotent (rb : Runbook) (st : EngineState) :
    (update_run_status rb (update_run_status rb st).2).1 =
      (update_run_status rb st).1 ∧
    (update_run_status rb (update_run_status rb st).2).2.runInfo.status =
      (update_run_status rb st).2.runInfo.status ∧
    (update_run_status rb (update_run_status rb st).2).2.runInfo.nodes_ok =
      (update_run_status rb st).2.runInfo.nodes_ok ∧
    (update_run_status rb (update_run_status rb st).2).2.runInfo.nodes_nok =
      (update_run_status rb st).2.runInfo.nodes_nok ∧
    (update_run_status rb (update_run_status rb st).2).2.runInfo.nodes_skipped =
      (update_run_status rb st).2.runInfo.nodes_skipped := by
  unfold update_run_status
  dsimp only
  by_cases hA : ((get_latest_executions_per_node
      (get_executions st.execStore rb.title st.runInfo.run_id)).any (fun p =>
        match rb.nodes.lookup p.2.node_id with
        | some node => node.critical && p.2.status == NodeStatus.nok
        | Option.none => false)) = true
  · simp only [if_pos hA]
    exact ⟨trivial, trivial, trivial, trivial, trivial⟩
  · by_cases hB : ((get_latest_executions_per_node
        (get_executions st.execStore rb.title st.runInfo.run_id)).countP
          (fun p => p.2.status == NodeStatus.ok) +
        (get_latest_executions_per_node
          (get_executions st.execStore rb.title st.runInfo.run_id)).countP
          (fun p => p.2.status == NodeStatus.nok) +
        (get_latest_executions_per_node
          (get_executions st.execStore rb.title st.runInfo.run_id)).countP
          (fun p => p.2.status == NodeStatus.skipped)) = rb.nodes.length
    · simp only [if_neg hA, if_pos hB]
      exact ⟨trivial, trivial, trivial, trivial, trivial⟩
    · simp only [if_neg hA, if_neg hB]
      exact ⟨trivial, trivial, trivial, trivial, trivial⟩

/-- The record `a`'s successful attempt leaves in the S2 store. -/
def aRecS2 : NodeExecution :=
  { workflow_name := "s2", run_id := 1, node_id := "a", attempt := 1,
    start_time := 0, end_time := some 0, status := .ok, exit_code := some 0,
    stdout := some "", stderr := some "", duration_ms := some 0 }

/-- The record `b`'s failed attempt `j` leaves in the S2 store. -/
def bRecS2 (j : Nat) : NodeExecution :=
  { workflow_name := "s2", run_id := 1, node_id := "b", attempt := j,
    start_time := 0, end_time := some 0, status := .nok, exit_code := some 1,
    stdout := some "", stderr := some "", duration_ms := some 0 }

/-- The S2 run record after `a` completed (counts persisted, still RUNNING). -/
def runMid : RunInfo := { runS2 with nodes_ok := 1 }

/-- Engine state at entry of the failure loop for `b`, after `k` failed
attempts of `b` (`k` is 1, 2 or 3: retries never exceed `max_retries`). -/
def c2state (k : Nat) : EngineState :=
  { execStore := aRecS2 :: (List.range' 1 k).map bRecS2,
    runInfo := runMid, clock := 0 }

def runAborted : RunInfo := { runMid with status := RunStatus.aborted }

def c2abort (k : Nat) : EngineState := { c2state k with runInfo := runAborted }

/-- The continuation of the S2 node loop after `b`'s failure handling
(break on abort, otherwise aggregate and run `c`). -/
def c2cont1 (p : EngineState × List Decision) :
    Except String (EngineState × List Decision) :=
  if p.1.runInfo.status = RunStatus.aborted then Except.ok p
  else nodes_loop envS2 rbS2 3 [] [] ["c"] p.2 (update_run_status rbS2 p.1).2

/-- The final aggregation step of `_execute_nodes` for S2. -/
def c2after (q : EngineState × List Decision) : Except String EngineState :=
  Except.ok (update_run_status rbS2 q.1).2

/-- Every terminating run of the interactive failure loop for the
critical node `b` ends with the run aborted and the store holding only
the `a` record and `b`'s failed attempts (never a `c` record): retries
keep failing, skip is refused for a critical node, and at `max_retries`
the loop aborts unconditionally. -/
theorem c2_loop : ∀ (ds : List Decision) (k : Nat),
    (k = 1 ∨ k = 2 ∨ k = 3) →
    ∀ (exec : NodeExecution) (p : EngineState × List Decision),
      failure_loop envS2 rbS2 3 nodeB2 "b" ds exec (c2state k) = .ok p →
      (p.1 = c2abort 1 ∨ p.1 = c2abort 2 ∨ p.1 = c2abort 3)
  | [], k, hk, exec, p, h => by
      rcases hk with rfl | rfl | rfl
      · exact absurd h (by intro hc; cases hc)
      · exact absurd h (by intro hc; cases hc)
      · have h2 : Except.ok ((c2abort 3, []) :
            EngineState × List Decision) = Except.ok p := h
        cases h2
        exact Or.inr (Or.inr rfl)
  | d :: ds, k, hk, exec, p, h => by
      rcases hk with rfl | rfl | rfl <;> cases d
      -- k = 1
      · exact c2_loop ds 2 (by simp) (bRecS2 2) p h
      · exact c2_loop ds 1 (by simp) exec p h
      · have h2 : Except.ok ((c2abort 1, ds) :
            EngineState × List Decision) = Except.ok p := h
        cases h2
        exact Or.inl rfl
      -- k = 2
      · exact c2_loop ds 3 (by simp) (bRecS2 3) p h
      · exact c2_loop ds 2 (by simp) exec p h
      · have h2 : Except.ok ((c2abort 2, ds) :
            EngineState × List Decision) = Except.ok p := h
        cases h2
        exact Or.inr (Or.inl rfl)
      -- k = 3 (max retries reached, critical: abort, decision not consumed)
      · have h2 : Except.ok ((c2abort 3, Decision.r :: ds) :
            EngineState × List Decision) = Except.ok p := h
        cases h2
        exact Or.inr (Or.inr rfl)
      · have h2 : Except.ok ((c2abort 3, Decision.s :: ds) :
            EngineState × List Decision) = Except.ok p := h
        cases h2
        exact Or.inr (Or.inr rfl)
      · have h2 : Except.ok ((c2abort 3, Decision.a :: ds) :
            EngineState × List Decision) = Except.ok p := h
        cases h2
        exact Or.inr (Or.inr rfl)

/-- C2: for the S2 runbook (a: exit 0 critical, b: exit 1 critical,
c: exit 0) executed in topological order [a, b, c], whatever decisions
the operator takes, any terminating execution ends with run status NOK,
counts nodes_ok=1, nodes_nok=1, nodes_skipped=0, and no attempt record
for `c` was ever created (the store only grows, and the final store has
none). -/
theorem c2_critical_failure_stops_run :
    get_execution_order rbS2 = Except.ok ["a", "b", "c"] ∧
    ∀ (ds : List Decision) (st' : EngineState),
      execute_nodes envS2 rbS2 3 [] ["a", "b", "c"] ds stS2 = .ok st' →
      st'.runInfo.status = RunStatus.nok ∧
      st'.runInfo.nodes_ok = 1 ∧
      st'.runInfo.nodes_nok = 1 ∧
      st'.runInfo.nodes_skipped = 0 ∧
      (∀ e ∈ st'.execStore, e.node_id ≠ "c") := by
  refine ⟨rfl, ?_⟩
  intro ds st' h
  have hred : execute_nodes envS2 rbS2 3 [] ["a", "b", "c"] ds stS2 =
      Except.bind (Except.bind
        (failure_loop envS2 rbS2 3 nodeB2 "b" ds (bRecS2 1) (c2state 1))
        c2cont1) c2after := rfl
  rw [hred] at h
  cases hfl : failure_loop envS2 rbS2 3 nodeB2 "b" ds (bRecS2 1) (c2state 1) with
  | error e =>
      rw [hfl] at h
      cases h
  | ok p =>
      rw [hfl] at h
      obtain ⟨p1, p2⟩ := p
      rcases c2_loop ds 1 (by simp) (bRecS2 1) (p1, p2) hfl with h1 | h1 | h1 <;>
        (dsimp only at h1; subst h1)
      · have h2 : Except.ok ((update_run_status rbS2 (c2abort 1)).2) =
            Except.ok st' := h
        cases h2
        refine ⟨by decide, by decide, by decide, by decide, by decide⟩
      · have h2 : Except.ok ((update_run_status rbS2 (c2abort 2)).2) =
            Except.ok st' := h
        cases h2
        refine ⟨by decide, by decide, by decide, by decide, by decide⟩
      · have h2 : Except.ok ((update_run_status rbS2 (c2abort 3)).2) =
            Except.ok st' := h
        cases h2
        refine ⟨by decide, by decide, by decide, by decide, by decide⟩

def c2final : EngineState :=
  ((execute_nodes envS2 rbS2 3 [] ["a", "b", "c"] [Decision.a] stS2).toOption).getD stS2

/-- C2 witness: the theorem applied to the concrete decision sequence
[abort]. -/
theorem c2_critical_failure_stops_run_witness :
    execute_nodes envS2 rbS2 3 [] ["a", "b", "c"] [Decision.a] stS2 =
      .ok c2final ∧
    (c2final.runInfo.status = RunStatus.nok ∧
      c2final.runInfo.nodes_ok = 1 ∧
      c2final.runInfo.nodes_nok = 1 ∧
      c2final.runInfo.nodes_skipped = 0 ∧
      (∀ e ∈ c2final.execStore, e.node_id ≠ "c")) :=
  ⟨rfl, c2_critical_failure_stops_run.2 [Decision.a] c2final rfl⟩

/-- The node ids of a runbook, in declaration order. -/
def keysOf (rb : Runbook) : List String := rb.nodes.map Prod.fst

/-- Every `depends_on` reference resolves within the runbook's nodes. -/
def depsResolve (rb : Runbook) : Prop :=
  ∀ p ∈ rb.nodes, ∀ d ∈ p.2.depends_on, d ∈ keysOf rb

/-- A rank certificate: dependencies strictly decrease the rank. For a
graph whose references resolve, such a certificate exists exactly when
the dependency graph is acyclic. -/
def rankDecreasing (rb : Runbook) (rank : String → Nat) : Prop :=
  ∀ p ∈ rb.nodes, ∀ d ∈ p.2.depends_on, rank d < rank p.1

/-- Every node of `order` appears after all of the nodes it depends on:
wherever the order splits as `l1 ++ v :: l2`, all of `v`'s dependencies
lie in `l1`. -/
def respectsDeps (rb : Runbook) (order : List String) : Prop :=
  ∀ l1 v l2, order = l1 ++ v :: l2 →
    ∀ n, rb.nodes.lookup v = some n → ∀ d ∈ n.depends_on, d ∈ l1

/-- The DFS invariant: the accumulated order is duplicate-free, lists
exactly the visited nodes, stays within the runbook's ids, and respects
dependencies. -/
def visitInv (rb : Runbook) (s : VisitState) : Prop :=
  s.order.Nodup ∧ (∀ v, v ∈ s.visited ↔ v ∈ s.order) ∧
  (∀ v ∈ s.visited, v ∈ keysOf rb) ∧ respectsDeps rb s.order

theorem lookup_mem {α : Type} :
    ∀ (l : List (String × α)) {k : String} {v : α},
      l.lookup k = some v → (k, v) ∈ l := by
  intro l
  induction l with
  | nil => intro k v h; cases h
  | cons hd tl ih =>
      intro k v h
      obtain ⟨k', v'⟩ := hd
      simp only [List.lookup] at h
      split at h
      · next heq =>
          cases h
          have hkk : k = k' := by simpa using heq
          subst hkk
          exact List.mem_cons_self _ _
      · exact List.mem_cons_of_mem _ (ih h)

theorem lookup_isSome_of_mem_keys {α : Type} :
    ∀ (l : List (String × α)) (k : String),
      k ∈ l.map Prod.fst → ∃ v, l.lookup k = some v := by
  intro l
  induction l with
  | nil => intro k h; cases h
  | cons hd tl ih =>
      intro k h
      obtain ⟨k', v'⟩ := hd
      by_cases hk : k = k'
      · subst hk
        exact ⟨v', by simp [List.lookup]⟩
      · have hmem : k ∈ tl.map Prod.fst := by
          simp only [List.map_cons, List.mem_cons] at h
          rcases h with h | h
          · exact absurd h hk
          · exact h
        obtain ⟨v, hv⟩ := ih k hmem
        refine ⟨v, ?_⟩
        simp only [List.lookup]
        rw [show (k == k') = false by simpa using hk]
        exact hv

theorem append_singleton_split {α : Type} (l l1 l2 : List α) (a v : α)
    (h : l ++ [a] = l1 ++ v :: l2) :
    (l1 = l ∧ v = a ∧ l2 = []) ∨ ∃ l2', l = l1 ++ v :: l2' ∧ l2 = l2' ++ [a] := by
  rcases List.append_eq_append_iff.mp h with ⟨a', ha1, ha2⟩ | ⟨c', hc1, hc2⟩
  · cases a' with
    | nil =>
        simp only [List.nil_append] at ha2
        cases ha2
        exact Or.inl ⟨by simpa using ha1, rfl, rfl⟩
    | cons x xs => simp at ha2
  · cases c' with
    | nil =>
        simp only [List.nil_append] at hc2
        cases hc2
        have hc1' : l1 = l := by simpa using hc1.symm
        exact Or.inl ⟨hc1', rfl, rfl⟩
    | cons x xs =>
        cases hc2
        exact Or.inr ⟨xs, by simpa using hc1, rfl⟩

theorem respectsDeps_append (rb : Runbook) (order : List String) (nid : String)
    (hresp : respectsDeps rb order)
    (hdeps : ∀ n, rb.nodes.lookup nid = some n → ∀ d ∈ n.depends_on, d ∈ order) :
    respectsDeps rb (order ++ [nid]) := by
  intro l1 v l2 hsplit n hn d hd
  rcases append_singleton_split order l1 l2 nid v hsplit with ⟨h1, h2, _⟩ | ⟨l2', h1, _⟩
  · subst h2
    subst h1
    exact hdeps n hn d hd
  · exact hresp l1 v l2' h1 n hn d hd

/-- Soundness of the dependency loop, for any visiting function `f`
satisfying the `visit` contract (postconditions `R`-stable temp, grown
visited set, preserved invariant). -/
theorem visit_deps_sound (rb : Runbook) (rank : String → Nat)
    (f : String → VisitState → Except String VisitState)
    (R : List String → Prop)
    (hf : ∀ nid s, nid ∈ keysOf rb → R s.temp →
      (∀ t ∈ s.temp, rank nid < rank t) → visitInv rb s →
      ∃ s', f nid s = .ok s' ∧ s'.temp = s.temp ∧ visitInv rb s' ∧
        nid ∈ s'.visited ∧ (∀ v ∈ s.visited, v ∈ s'.visited) ∧
        (∀ v ∈ s'.visited, v ∈ s.visited ∨ v ∉ s.temp)) :
    ∀ (deps : List String) (s : VisitState),
      (∀ d ∈ deps, d ∈ keysOf rb) → R s.temp →
      (∀ d ∈ deps, ∀ t ∈ s.temp, rank d < rank t) → visitInv rb s →
      ∃ s', visit_deps f deps s = .ok s' ∧ s'.temp = s.temp ∧ visitInv rb s' ∧
        (∀ d ∈ deps, d ∈ s'.visited) ∧ (∀ v ∈ s.visited, v ∈ s'.visited) ∧
        (∀ v ∈ s'.visited, v ∈ s.visited ∨ v ∉ s.temp) := by
  intro deps
  induction deps with
  | nil =>
      intro s _ _ _ hinv
      exact ⟨s, rfl, rfl, hinv, by simp, fun v hv => hv, fun v hv => Or.inl hv⟩
  | cons d ds ih =>
      intro s hkeys hR htempr hinv
      obtain ⟨sa, hfa, htempa, hinva, hdvis, hmona, hnewa⟩ :=
        hf d s (hkeys d (by simp)) hR (htempr d (by simp)) hinv
      obtain ⟨sb, hfb, htempb, hinvb, hdsvis, hmonb, hnewb⟩ :=
        ih sa (fun x hx => hkeys x (by simp [hx]))
          (by rw [htempa]; exact hR)
          (fun x hx t ht => htempr x (by simp [hx]) t (by rwa [htempa] at ht))
          hinva
      refine ⟨sb, ?_, ?_, hinvb, ?_, ?_, ?_⟩
      · simp only [visit_deps]
        rw [hfa]
        exact hfb
      · rw [htempb, htempa]
      · intro x hx
        rcases List.mem_cons.mp hx with rfl | hx'
        · exact hmonb x hdvis
        · exact hdsvis x hx'
      · exact fun v hv => hmonb v (hmona v hv)
      · intro v hv
        rcases hnewb v hv with hva | hnt
        · rcases hnewa v hva with h' | h'
          · exact Or.inl h'
          · exact Or.inr h'
        · rw [htempa] at hnt
          exact Or.inr hnt

/-- Soundness of `visit`: on a resolving, rank-certified runbook, a
visit with enough fuel succeeds, restores `temp`, marks the node
visited, and preserves the invariant. The fuel argument uses that the
`temp` chain is duplicate-free inside the node set. -/
theorem visit_sound (rb : Runbook) (rank : String → Nat)
    (hres : depsResolve rb) (hrank : rankDecreasing rb rank) :
    ∀ (fuel : Nat) (nid : String) (s : VisitState),
      nid ∈ keysOf rb →
      (∀ t ∈ s.temp, rank nid < rank t) →
      s.temp.Nodup → (∀ t ∈ s.temp, t ∈ keysOf rb) →
      (keysOf rb).length < fuel + s.temp.length →
      visitInv rb s →
      ∃ s', visit rb fuel nid s = .ok s' ∧ s'.temp = s.temp ∧ visitInv rb s' ∧
        nid ∈ s'.visited ∧ (∀ v ∈ s.visited, v ∈ s'.visited) ∧
        (∀ v ∈ s'.visited, v ∈ s.visited ∨ v ∉ s.temp) := by
  intro fuel
  induction fuel with
  | zero =>
      intro nid s _ _ htn hts hlen _
      exfalso
      have hle : s.temp.length ≤ (keysOf rb).length :=
        (List.subperm_of_subset htn hts).length_le
      omega
  | succ fuel ih =>
      intro nid s hk htempr htn hts hlen hinv
      have hnt : nid ∉ s.temp := fun hmem => absurd (htempr nid hmem) (lt_irrefl _)
      by_cases hvis : nid ∈ s.visited
      · refine ⟨s, ?_, rfl, hinv, hvis, fun v hv => hv, fun v hv => Or.inl hv⟩
        simp only [visit]
        rw [if_neg hnt, if_pos hvis]
      · obtain ⟨n, hlook⟩ := lookup_isSome_of_mem_keys rb.nodes nid hk
        have hmemn : (nid, n) ∈ rb.nodes := lookup_mem rb.nodes hlook
        obtain ⟨s2, hloop, htemp2, hinv2, hdepsvis, hmono2, hnew2⟩ :=
          visit_deps_sound rb rank (visit rb fuel)
            (fun temp => temp.Nodup ∧ (∀ t ∈ temp, t ∈ keysOf rb) ∧
              (keysOf rb).length < fuel + temp.length)
            (fun nid' s' hk' hR' htc' hinv' =>
              ih nid' s' hk' htc' hR'.1 hR'.2.1 hR'.2.2 hinv')
            n.depends_on { s with temp := nid :: s.temp }
            (fun d hd => hres (nid, n) hmemn d hd)
            (by
              refine ⟨List.nodup_cons.mpr ⟨hnt, htn⟩, ?_, ?_⟩
              · intro t ht
                rcases List.mem_cons.mp ht with rfl | ht'
                · exact hk
                · exact hts t ht'
              · simp only [List.length_cons]
                omega)
            (fun d hd t ht => by
              rcases List.mem_cons.mp ht with rfl | ht'
              · exact hrank _ hmemn d hd
              · exact lt_trans (hrank _ hmemn d hd) (htempr t ht'))
            hinv
        have hnid2 : nid ∉ s2.visited := by
          intro hmem
          rcases hnew2 nid hmem with h' | h'
          · exact hvis h'
          · exact h' (List.mem_cons_self _ _)
        have hnidord : nid ∉ s2.order := fun hmem =>
          hnid2 ((hinv2.2.1 nid).mpr hmem)
        refine ⟨{ visited := nid :: s2.visited, temp := s2.temp.erase nid,
                  order := s2.order ++ [nid] }, ?_, ?_, ?_, ?_, ?_, ?_⟩
        · simp only [visit]
          rw [if_neg hnt, if_neg hvis, hlook]
          dsimp only
          rw [hloop]
        · simp only [htemp2]
          exact List.erase_cons_head nid s.temp
        · refine ⟨?_, ?_, ?_, ?_⟩
          · refine List.nodup_append.mpr ⟨hinv2.1, List.nodup_singleton nid, ?_⟩
            intro a ha hb
            rw [List.mem_singleton] at hb
            subst hb
            exact hnidord ha
          · intro v
            simp only [List.mem_cons, List.mem_append, List.mem_singleton,
              List.not_mem_nil, or_false]
            rw [hinv2.2.1 v]
            exact Or.comm
          · intro v hv
            rcases List.mem_cons.mp hv with rfl | hv'
            · exact hk
            · exact hinv2.2.2.1 v hv'
          · refine respectsDeps_append rb s2.order nid hinv2.2.2.2 ?_
            intro n' hn' d hd
            rw [hlook] at hn'
            cases hn'
            exact (hinv2.2.1 d).mp (hdepsvis d hd)
        · exact List.mem_cons_self _ _
        · exact fun v hv => List.mem_cons_of_mem _ (hmono2 v hv)
        · intro v hv
          rcases List.mem_cons.mp hv with rfl | hv'
          · exact Or.inr hnt
          · rcases hnew2 v hv' with h' | h'
            · exact Or.inl h'
            · exact Or.inr (fun hc => h' (List.mem_cons_of_mem _ hc))

/-- The top-level loop of `_get_execution_order` visits every listed
node. -/
theorem fold_visits_sound (rb : Runbook) (rank : String → Nat)
    (hres : depsResolve rb) (hrank : rankDecreasing rb rank) :
    ∀ (ks : List String) (s : VisitState),
      (∀ k ∈ ks, k ∈ keysOf rb) → s.temp = [] → visitInv rb s →
      ∃ s', (ks.foldlM (fun s node_id =>
              if node_id ∈ s.visited then Except.ok s
              else visit rb ((keysOf rb).length + 1) node_id s) s) = .ok s' ∧
        visitInv rb s' ∧ (∀ k ∈ ks, k ∈ s'.visited) ∧
        (∀ v ∈ s.visited, v ∈ s'.visited) := by
  intro ks
  induction ks with
  | nil =>
      intro s _ _ hinv
      exact ⟨s, rfl, hinv, by simp, fun v hv => hv⟩
  | cons k ks ih =>
      intro s hks htemp hinv
      by_cases hvis : k ∈ s.visited
      · obtain ⟨s', hfold, hinv', hall, hmono⟩ :=
          ih s (fun x hx => hks x (by simp [hx])) htemp hinv
        refine ⟨s', ?_, hinv', ?_, hmono⟩
        · simp only [List.foldlM, if_pos hvis]
          exact hfold
        · intro x hx
          rcases List.mem_cons.mp hx with rfl | hx'
          · exact hmono x hvis
          · exact hall x hx'
      · obtain ⟨s1, hvisit, htemp1, hinv1, hkvis, hmono1, _⟩ :=
          visit_sound rb rank hres hrank ((keysOf rb).length + 1) k s
            (hks k (by simp))
            (by rw [htemp]; intro t ht; cases ht)
            (by rw [htemp]; exact List.nodup_nil)
            (by rw [htemp]; intro t ht; cases ht)
            (by omega)
            hinv
        obtain ⟨s', hfold, hinv', hall, hmono⟩ :=
          ih s1 (fun x hx => hks x (by simp [hx])) (by rw [htemp1, htemp]) hinv1
        refine ⟨s', ?_, hinv', ?_, ?_⟩
        · simp only [List.foldlM, if_neg hvis]
          rw [hvisit]
          exact hfold
        · intro x hx
          rcases List.mem_cons.mp hx with rfl | hx'
          · exact hmono x hkvis
          · exact hall x hx'
        · exact fun v hv => hmono v (hmono1 v hv)

/-- C6: for every runbook whose dependency references all resolve and
whose graph is acyclic (witnessed by a rank certificate, which exists
iff the finite graph has no cycle), `_get_execution_order` succeeds and
returns a list containing every node id exactly once — including nodes
unreachable from any sink — in which each node appears after all of the
nodes it depends on. -/
theorem c6_topological_order_sound (rb : Runbook)
    (hres : depsResolve rb)
    (hacyc : ∃ rank : String → Nat, rankDecreasing rb rank) :
    ∃ order, get_execution_order rb = .ok order ∧ order.Nodup ∧
      (∀ v, v ∈ order ↔ v ∈ keysOf rb) ∧ respectsDeps rb order := by
  obtain ⟨rank, hrank⟩ := hacyc
  obtain ⟨s', hfold, hinv', hall, _⟩ :=
    fold_visits_sound rb rank hres hrank (keysOf rb) ⟨[], [], []⟩
      (fun k hk => hk) rfl
      (by
        refine ⟨List.nodup_nil, ?_, ?_, ?_⟩
        · intro v
          simp
        · intro v hv
          cases hv
        · intro l1 v l2 h n hn d hd
          exact absurd h (by simp))
  refine ⟨s'.order, ?_, hinv'.1, ?_, hinv'.2.2.2⟩
  · unfold get_execution_order
    dsimp only
    rw [show List.map Prod.fst rb.nodes = keysOf rb from rfl, hfold]
    rfl
  · intro v
    constructor
    · intro hv
      exact hinv'.2.2.1 v ((hinv'.2.1 v).mpr hv)
    · intro hv
      exact (hinv'.2.1 v).mp (hall v hv)

/-- A concrete rank certificate for the linear S2 runbook. -/
def c6rank (v : String) : Nat :=
  if v = "a" then 0 else if v = "b" then 1 else 2

/-- C6 witness: the theorem applied to the concrete linear runbook S2,
hypotheses discharged by evaluation. -/
theorem c6_topological_order_sound_witness :
    (depsResolve rbS2 ∧ rankDecreasing rbS2 c6rank) ∧
    (∃ order, get_execution_order rbS2 = .ok order ∧ order.Nodup ∧
      (∀ v, v ∈ order ↔ v ∈ keysOf rbS2) ∧ respectsDeps rbS2 order) :=
  ⟨⟨by unfold depsResolve keysOf; decide, by unfold rankDecreasing c6rank; decide⟩,
    c6_topological_order_sound rbS2 (by unfold depsResolve keysOf; decide)
      ⟨c6rank, by unfold rankDecreasing c6rank; decide⟩⟩

end Playbook
